import Mathlib

/-!
Verification of the media-group resolution algorithm of
`pyrogram/methods/messages/get_media_group.py` (pyrofork).

The embedding models the external `MessageFetcher` as a finite store of
messages (`Chat`): fetching a batch of ids returns the messages present in
the store at those ids, in id order, absent ids silently skipped.  Message
ids are integers (Python `int`); `media_group_id` is an optional integer,
with Python truthiness (`None` and `0` are falsy) modelled by `pyTruthy`.

`get_media_group` is a direct translation of the source function:
input validation, seed lookup, the backward chunked scan with its
contiguity check, the forward chunked scan, the empty-accumulator guard,
and the final ascending sort by id.
-/

/-- A Telegram message as far as this algorithm reads it: its id and its
optional media-group identifier. -/
structure Message where
  id : Int
  media_group_id : Option Int
deriving DecidableEq, Repr

/-- The fetcher's store: the messages existing in the chat. -/
abbrev Chat := List Message

/-- Fetch the message with a given id, if present
(`client.get_messages(chat_id, message_ids=i)` for a single id). -/
def fetchOne (chat : Chat) (i : Int) : Option Message :=
  chat.find? (fun m => m.id == i)

/-- Integer interval `[a, b]` as a list, empty when `b < a`
(Python `range(start_id, end_id + 1)`). -/
def intRange (a b : Int) : List Int :=
  (List.range (b + 1 - a).toNat).map (fun k : Nat => a + (k : Int))

/-- `get_message_chunk(start_id, end_id)`: fetch the messages with ids in
`[start_id, end_id]`; deleted/absent ids are simply missing from the
result. -/
def getMessageChunk (chat : Chat) (start_id end_id : Int) : List Message :=
  (intRange start_id end_id).filterMap (fetchOne chat)

/-- Python truthiness of the optional `media_group_id` field:
`None` and `0` are falsy. -/
def pyTruthy : Option Int → Bool
  | none => false
  | some v => v != 0

/-- The error taxonomy of the operation (each is a `ValueError` in the
source, distinguished by its message). -/
inductive MediaGroupError where
  | invalidArgument
  | notFound
  | notAGroupMember
  | assemblyFailure
deriving DecidableEq, Repr

lemma mem_intRange {a b i : Int} : i ∈ intRange a b ↔ a ≤ i ∧ i ≤ b := by
  simp only [intRange, List.mem_map, List.mem_range]
  constructor
  · rintro ⟨k, hk, rfl⟩
    refine ⟨by omega, by omega⟩
  · rintro ⟨h1, h2⟩
    refine ⟨(i - a).toNat, by omega, by omega⟩

lemma fetchOne_eq_some {chat : Chat} {i : Int} {m : Message}
    (h : fetchOne chat i = some m) : m ∈ chat ∧ m.id = i := by
  refine ⟨List.mem_of_find?_eq_some h, ?_⟩
  have := List.find?_some h
  simpa using this

/-- An upper bound on all message ids present in the chat. -/
def maxIdOf (chat : Chat) : Int :=
  chat.foldr (fun m acc => max m.id acc) 0

lemma le_maxIdOf {chat : Chat} {m : Message} (h : m ∈ chat) :
    m.id ≤ maxIdOf chat := by
  induction chat with
  | nil => cases h
  | cons x xs ih =>
    rcases List.mem_cons.mp h with rfl | hx
    · simp [maxIdOf]
    · simp only [maxIdOf, List.foldr_cons]
      exact le_max_of_le_right (ih hx)

lemma mem_getMessageChunk {chat : Chat} {a b : Int} {m : Message}
    (h : m ∈ getMessageChunk chat a b) :
    a ≤ m.id ∧ m.id ≤ b ∧ m ∈ chat := by
  simp only [getMessageChunk, List.mem_filterMap] at h
  obtain ⟨i, hi, hf⟩ := h
  obtain ⟨hmem, hid⟩ := fetchOne_eq_some hf
  rw [mem_intRange] at hi
  exact ⟨by omega, by omega, hmem⟩

/-- The backward scan loop (`# Search backwards` in the source): fetch the
chunk of up to 10 ids ending at `current_id`, keep the messages matching
the target group id, stop if there are none or if they are not a
contiguous block ending exactly at `current_id`; otherwise prepend them,
move `current_id` below the block, and continue unless it reached 0. -/
def backwardScan (chat : Chat) (g : Option Int) (current_id : Int)
    (media_group : List Message) : List Message :=
  let chunk := getMessageChunk chat (max 1 (current_id - 9)) current_id
  match chunk.filter (fun msg => msg.media_group_id == g) with
  | [] => media_group
  | m0 :: tl =>
    if m0.id ≠ current_id - ((m0 :: tl).length : Int) + 1 then media_group
    else
      let acc := (m0 :: tl) ++ media_group
      if m0.id - 1 ≤ 0 then acc
      else backwardScan chat g (m0.id - 1) acc
termination_by current_id.toNat
decreasing_by
  simp at *
  omega

/-- The forward scan loop (`# Search forwards` in the source): fetch the
chunk of 10 ids starting at `current_id`, keep the messages matching the
target group id, stop when there are none; otherwise append them and
continue just above the highest matched id. -/
def forwardScan (chat : Chat) (g : Option Int) (current_id : Int)
    (media_group : List Message) : List Message :=
  let chunk := getMessageChunk chat current_id (current_id + 9)
  match h : chunk.filter (fun msg => msg.media_group_id == g) with
  | [] => media_group
  | m0 :: tl =>
    forwardScan chat g (((m0 :: tl).getLast (List.cons_ne_nil m0 tl)).id + 1)
      (media_group ++ (m0 :: tl))
termination_by (maxIdOf chat + 1 - current_id).toNat
decreasing_by
  have hlast : (m0 :: tl).getLast (List.cons_ne_nil m0 tl) ∈ m0 :: tl :=
    List.getLast_mem _
  have hfil : (m0 :: tl).getLast (List.cons_ne_nil m0 tl) ∈
      chunk.filter (fun msg => msg.media_group_id == g) := by
    rw [h]; exact hlast
  have hb := mem_getMessageChunk (List.mem_of_mem_filter hfil)
  have hmax := le_maxIdOf hb.2.2
  omega

lemma backwardScan_eq_nil {chat : Chat} {g : Option Int} {current_id : Int}
    {media_group : List Message}
    (h : (getMessageChunk chat (max 1 (current_id - 9)) current_id).filter
        (fun msg => msg.media_group_id == g) = []) :
    backwardScan chat g current_id media_group = media_group := by
  rw [backwardScan]
  split
  all_goals rename_i heq
  all_goals rw [h] at heq
  all_goals try cases heq
  all_goals rfl

lemma backwardScan_eq_brk {chat : Chat} {g : Option Int} {current_id : Int}
    {media_group : List Message} (m0 : Message) (tl : List Message)
    (h : (getMessageChunk chat (max 1 (current_id - 9)) current_id).filter
        (fun msg => msg.media_group_id == g) = m0 :: tl)
    (hne : m0.id ≠ current_id - ((m0 :: tl).length : Int) + 1) :
    backwardScan chat g current_id media_group = media_group := by
  rw [backwardScan]
  split
  all_goals rename_i heq
  all_goals rw [h] at heq
  all_goals try cases heq
  all_goals rw [if_pos hne]

lemma backwardScan_eq_last {chat : Chat} {g : Option Int} {current_id : Int}
    {media_group : List Message} (m0 : Message) (tl : List Message)
    (h : (getMessageChunk chat (max 1 (current_id - 9)) current_id).filter
        (fun msg => msg.media_group_id == g) = m0 :: tl)
    (hc : m0.id = current_id - ((m0 :: tl).length : Int) + 1)
    (hstop : m0.id - 1 ≤ 0) :
    backwardScan chat g current_id media_group = (m0 :: tl) ++ media_group := by
  rw [backwardScan]
  split
  all_goals rename_i heq
  all_goals rw [h] at heq
  all_goals try cases heq
  all_goals rw [if_neg (by exact fun hk => hk hc), if_pos hstop]

lemma backwardScan_eq_step {chat : Chat} {g : Option Int} {current_id : Int}
    {media_group : List Message} (m0 : Message) (tl : List Message)
    (h : (getMessageChunk chat (max 1 (current_id - 9)) current_id).filter
        (fun msg => msg.media_group_id == g) = m0 :: tl)
    (hc : m0.id = current_id - ((m0 :: tl).length : Int) + 1)
    (hgo : ¬ m0.id - 1 ≤ 0) :
    backwardScan chat g current_id media_group =
      backwardScan chat g (m0.id - 1) ((m0 :: tl) ++ media_group) := by
  rw [backwardScan]
  split
  all_goals rename_i heq
  all_goals rw [h] at heq
  all_goals try cases heq
  all_goals rw [if_neg (by exact fun hk => hk hc), if_neg hgo]

lemma forwardScan_eq_nil {chat : Chat} {g : Option Int} {current_id : Int}
    {media_group : List Message}
    (h : (getMessageChunk chat current_id (current_id + 9)).filter
        (fun msg => msg.media_group_id == g) = []) :
    forwardScan chat g current_id media_group = media_group := by
  rw [forwardScan]
  split
  all_goals rename_i heq
  all_goals rw [h] at heq
  all_goals try cases heq
  all_goals rfl

lemma forwardScan_eq_step {chat : Chat} {g : Option Int} {current_id : Int}
    {media_group : List Message} (m0 : Message) (tl : List Message)
    (h : (getMessageChunk chat current_id (current_id + 9)).filter
        (fun msg => msg.media_group_id == g) = m0 :: tl) :
    forwardScan chat g current_id media_group =
      forwardScan chat g (((m0 :: tl).getLast (List.cons_ne_nil m0 tl)).id + 1)
        (media_group ++ (m0 :: tl)) := by
  rw [forwardScan]
  split
  all_goals rename_i heq
  all_goals rw [h] at heq
  all_goals try cases heq
  all_goals rfl

/-- Sort ascending by message id (`sorted(media_group, key=lambda x: x.id)`). -/
def sortById (l : List Message) : List Message :=
  l.mergeSort (fun a b => a.id ≤ b.id)

/-- The translated `get_media_group`: validate the seed id, look up the
seed message, check it belongs to a media group (Python truthiness), run
the backward then the forward scan, fail if nothing was accumulated, and
return the accumulated messages sorted ascending by id. -/
def get_media_group (chat : Chat) (message_id : Int) :
    Except MediaGroupError (List Message) :=
  if message_id ≤ 0 then .error .invalidArgument
  else
    match fetchOne chat message_id with
    | none => .error .notFound
    | some target_message =>
      if pyTruthy target_message.media_group_id = false then
        .error .notAGroupMember
      else
        let media_group_id := target_message.media_group_id
        let afterBackward := backwardScan chat media_group_id message_id []
        let media_group := forwardScan chat media_group_id (message_id + 1) afterBackward
        if media_group = [] then .error .assemblyFailure
        else .ok (sortById media_group)

/-- A fetch at id `i` filtered to the target group: the message at `i`
when it exists and carries exactly the group id `g`. -/
def fetchMatch (chat : Chat) (g : Option Int) (i : Int) : Option Message :=
  (fetchOne chat i).bind (fun m => if m.media_group_id = g then some m else none)

/-- Spec §3: id `i` lies in the contiguous id-run around the seed sharing
group id `g` — every id between `i` and the seed holds a message of group
`g`. -/
def inRun (chat : Chat) (g : Option Int) (seed i : Int) : Bool :=
  (intRange (min i seed) (max i seed)).all (fun j => (fetchMatch chat g j).isSome)

/-- Spec §4 rationale: "Telegram albums always occupy a contiguous run of
message ids" — between any two messages of group `g` every id holds a
message of group `g`. -/
def groupContiguous (chat : Chat) (g : Option Int) : Prop :=
  ∀ i j k : Int, i ≤ j → j ≤ k →
    (fetchMatch chat g i).isSome → (fetchMatch chat g k).isSome →
    (fetchMatch chat g j).isSome

/-- Claim C6: for every `message_id ≤ 0` and every chat (hence independent
of anything the fetcher could answer — no fetch is consulted), the call
fails with `InvalidArgument`. -/
theorem c6_nonpositive_id_invalid_argument (chat : Chat) (message_id : Int)
    (h : message_id ≤ 0) :
    get_media_group chat message_id = .error .invalidArgument := by
  simp only [get_media_group]
  rw [if_pos h]

/-- Witness for C6 at `message_id = -3`. -/
theorem c6_nonpositive_id_invalid_argument_witness :
    (-3 : Int) ≤ 0 ∧
      get_media_group [] (-3) = .error .invalidArgument :=
  ⟨by decide, c6_nonpositive_id_invalid_argument [] (-3) (by decide)⟩

/-- Claim C7: for every positive seed id and every chat, if the seed fetch
returns nothing the call fails with `NotFound`, and if the fetched seed
carries no (truthy) `media_group_id` it fails with `NotAGroupMember`; the
outcome is fixed by the seed fetch alone (the statement holds for every
chat with that seed answer), so no scan fetch matters. -/
theorem c7_seed_lookup_errors (chat : Chat) (message_id : Int)
    (hpos : 0 < message_id) :
    (fetchOne chat message_id = none →
      get_media_group chat message_id = .error .notFound) ∧
    (∀ t : Message, fetchOne chat message_id = some t →
      pyTruthy t.media_group_id = false →
      get_media_group chat message_id = .error .notAGroupMember) := by
  constructor
  · intro hnone
    simp only [get_media_group]
    rw [if_neg (by omega), hnone]
  · intro t htf htr
    simp only [get_media_group]
    rw [if_neg (by omega), htf]
    dsimp only
    rw [if_pos htr]

/-- Witness for C7 at an empty chat and seed id 4. -/
theorem c7_seed_lookup_errors_witness :
    (0 : Int) < 4 ∧
      ((fetchOne [] 4 = none → get_media_group [] 4 = .error .notFound) ∧
       (∀ t : Message, fetchOne [] 4 = some t →
         pyTruthy t.media_group_id = false →
         get_media_group [] 4 = .error .notAGroupMember)) :=
  ⟨by decide, c7_seed_lookup_errors [] 4 (by decide)⟩

/-- Claim C10: a present-but-falsy `media_group_id` (here `0`, the integer
falsy value) is treated as absent by the truthiness test, so the call
fails with `NotAGroupMember`. -/
theorem c10_falsy_group_id_not_a_group_member (chat : Chat) (message_id : Int)
    (t : Message) (hpos : 0 < message_id)
    (ht : fetchOne chat message_id = some t)
    (hz : t.media_group_id = some 0) :
    get_media_group chat message_id = .error .notAGroupMember := by
  simp only [get_media_group]
  rw [if_neg (by omega), ht]
  dsimp only
  rw [if_pos (by rw [hz]; decide)]

/-- Witness for C10: a chat whose message 7 has `media_group_id = 0`. -/
theorem c10_falsy_group_id_not_a_group_member_witness :
    (0 : Int) < 7 ∧
      fetchOne [⟨7, some 0⟩] 7 = some ⟨7, some 0⟩ ∧
      (Message.mk 7 (some 0)).media_group_id = some 0 ∧
      get_media_group [⟨7, some 0⟩] 7 = .error .notAGroupMember :=
  ⟨by decide, by decide, by decide,
    c10_falsy_group_id_not_a_group_member [⟨7, some 0⟩] 7 ⟨7, some 0⟩
      (by decide) (by decide) (by decide)⟩

unseal List.merge List.mergeSort in
/-- Claim C4: for a chat with ids 10–14 all in group 1 and neighbours 9
and 15 outside it, resolving from seed 12 returns exactly messages
10,11,12,13,14 ascending. -/
theorem c4_contiguous_group_resolved :
    get_media_group [⟨9, none⟩, ⟨10, some 1⟩, ⟨11, some 1⟩, ⟨12, some 1⟩,
      ⟨13, some 1⟩, ⟨14, some 1⟩, ⟨15, some 2⟩] 12
    = .ok [⟨10, some 1⟩, ⟨11, some 1⟩, ⟨12, some 1⟩, ⟨13, some 1⟩, ⟨14, some 1⟩] := by
  simp only [get_media_group]
  rw [if_neg (by decide)]
  rw [show fetchOne [⟨9, none⟩, ⟨10, some 1⟩, ⟨11, some 1⟩, ⟨12, some 1⟩,
      ⟨13, some 1⟩, ⟨14, some 1⟩, ⟨15, some 2⟩] 12 = some ⟨12, some 1⟩ from by decide]
  dsimp only
  rw [if_neg (by decide)]
  rw [backwardScan_eq_step ⟨10, some 1⟩ [⟨11, some 1⟩, ⟨12, some 1⟩]
    (by decide) (by decide) (by decide)]
  rw [backwardScan_eq_nil (by decide)]
  rw [forwardScan_eq_step ⟨13, some 1⟩ [⟨14, some 1⟩] (by decide)]
  rw [forwardScan_eq_nil (by decide)]
  rw [if_neg (by decide)]
  rfl

unseal List.merge List.mergeSort in
/-- Claim C9: with ids 10 and 12 in group 1, 11 in another group and 13 in
group 1, resolving from seed 12 succeeds yet the returned list does not
contain the seed: the backward scan discards its whole first chunk (the
matches 10,12 are non-contiguous), losing the seed, while the forward scan
still collects 13. -/
theorem c9_success_can_exclude_seed :
    fetchOne [⟨10, some 1⟩, ⟨11, some 2⟩, ⟨12, some 1⟩, ⟨13, some 1⟩] 12
        = some ⟨12, some 1⟩ ∧
    get_media_group [⟨10, some 1⟩, ⟨11, some 2⟩, ⟨12, some 1⟩, ⟨13, some 1⟩] 12
        = .ok [⟨13, some 1⟩] ∧
    ∀ m ∈ [(⟨13, some 1⟩ : Message)], m.id ≠ 12 := by
  refine ⟨by decide, ?_, by decide⟩
  simp only [get_media_group]
  rw [if_neg (by decide)]
  rw [show fetchOne [⟨10, some 1⟩, ⟨11, some 2⟩, ⟨12, some 1⟩, ⟨13, some 1⟩] 12
      = some ⟨12, some 1⟩ from by decide]
  dsimp only
  rw [if_neg (by decide)]
  rw [backwardScan_eq_brk ⟨10, some 1⟩ [⟨12, some 1⟩]
    (by decide) (by decide)]
  rw [forwardScan_eq_step ⟨13, some 1⟩ [] (by decide)]
  rw [forwardScan_eq_nil (by decide)]
  rw [if_neg (by decide)]
  rfl

/-- Claim C2, counterexample: in the chat where 10 and 12 share group 1
but 11 does not (and nothing above 12 matches), resolving from seed 12
does NOT succeed — it fails with `AssemblyFailure` — contradicting the
claim that the call succeeds returning `[12]` (or `[11,12]`). -/
theorem c2_counterexample :
    get_media_group [⟨10, some 1⟩, ⟨11, some 2⟩, ⟨12, some 1⟩] 12
        = .error .assemblyFailure ∧
    ∀ res : List Message,
      get_media_group [⟨10, some 1⟩, ⟨11, some 2⟩, ⟨12, some 1⟩] 12 ≠ .ok res := by
  have h : get_media_group [⟨10, some 1⟩, ⟨11, some 2⟩, ⟨12, some 1⟩] 12
      = .error .assemblyFailure := by
    simp only [get_media_group]
    rw [if_neg (by decide)]
    rw [show fetchOne [⟨10, some 1⟩, ⟨11, some 2⟩, ⟨12, some 1⟩] 12
        = some ⟨12, some 1⟩ from by decide]
    dsimp only
    rw [if_neg (by decide)]
    rw [backwardScan_eq_brk ⟨10, some 1⟩ [⟨12, some 1⟩]
      (by decide) (by decide)]
    rw [forwardScan_eq_nil (by decide)]
    rw [if_pos rfl]
  refine ⟨h, fun res hres => ?_⟩
  rw [h] at hres
  cases hres

/-- Claim C2, amended: the backward scan from seed 12 indeed stops before
the non-contiguous match 10 — it accumulates nothing at all, not even the
seed — and the call then fails with `AssemblyFailure` instead of
succeeding; message 10 is never part of any returned list. -/
theorem c2_amended_backward_stops_then_assembly_fails :
    backwardScan [⟨10, some 1⟩, ⟨11, some 2⟩, ⟨12, some 1⟩] (some 1) 12 [] = [] ∧
    get_media_group [⟨10, some 1⟩, ⟨11, some 2⟩, ⟨12, some 1⟩] 12
        = .error .assemblyFailure := by
  constructor
  · rw [backwardScan_eq_brk ⟨10, some 1⟩ [⟨12, some 1⟩]
      (by decide) (by decide)]
  · simp only [get_media_group]
    rw [if_neg (by decide)]
    rw [show fetchOne [⟨10, some 1⟩, ⟨11, some 2⟩, ⟨12, some 1⟩] 12
        = some ⟨12, some 1⟩ from by decide]
    dsimp only
    rw [if_neg (by decide)]
    rw [backwardScan_eq_brk ⟨10, some 1⟩ [⟨12, some 1⟩]
      (by decide) (by decide)]
    rw [forwardScan_eq_nil (by decide)]
    rw [if_pos rfl]

/-- Claim C3, counterexample: the seed lookup succeeds (message 22 exists
and its `media_group_id` is truthy), the fetcher is a fixed consistent
store, and yet the call fails with `AssemblyFailure`: the backward chunk's
matches 20,22 are non-contiguous, so the whole chunk (seed included) is
discarded and nothing is ever accumulated. -/
theorem c3_counterexample :
    fetchOne [⟨20, some 5⟩, ⟨21, none⟩, ⟨22, some 5⟩] 22 = some ⟨22, some 5⟩ ∧
    pyTruthy (some 5) = true ∧
    get_media_group [⟨20, some 5⟩, ⟨21, none⟩, ⟨22, some 5⟩] 22
        = .error .assemblyFailure := by
  refine ⟨by decide, by decide, ?_⟩
  simp only [get_media_group]
  rw [if_neg (by decide)]
  rw [show fetchOne [⟨20, some 5⟩, ⟨21, none⟩, ⟨22, some 5⟩] 22
      = some ⟨22, some 5⟩ from by decide]
  dsimp only
  rw [if_neg (by decide)]
  rw [backwardScan_eq_brk ⟨20, some 5⟩ [⟨22, some 5⟩]
    (by decide) (by decide)]
  rw [forwardScan_eq_nil (by decide)]
  rw [if_pos rfl]

unseal List.merge List.mergeSort in
/-- Claim C8: the backward scan's chunk lower bound `max 1 (current_id - 9)`
never drops below 1; whenever a chunk is consumed the scan continues at
`m0.id - 1`, which is strictly below `current_id` (so the loop terminates,
as the well-founded definition of `backwardScan` requires); and a group
starting at id 1 is resolved without underflow. -/
theorem c8_backward_scan_terminates (chat : Chat) (g : Option Int)
    (current_id : Int) (media_group : List Message) (m0 : Message)
    (tl : List Message)
    (h : (getMessageChunk chat (max 1 (current_id - 9)) current_id).filter
        (fun msg => msg.media_group_id == g) = m0 :: tl)
    (hc : m0.id = current_id - ((m0 :: tl).length : Int) + 1)
    (hgt : 0 < m0.id - 1) :
    1 ≤ max 1 (current_id - 9) ∧
    backwardScan chat g current_id media_group =
      backwardScan chat g (m0.id - 1) ((m0 :: tl) ++ media_group) ∧
    m0.id - 1 < current_id ∧
    get_media_group [⟨1, some 3⟩, ⟨2, some 3⟩] 2 = .ok [⟨1, some 3⟩, ⟨2, some 3⟩] := by
  have hc2 : m0.id = current_id - ((tl.length : Int) + 1) + 1 := by simpa using hc
  refine ⟨le_max_left _ _, backwardScan_eq_step m0 tl h hc (by omega), by omega, ?_⟩
  simp only [get_media_group]
  rw [if_neg (by decide)]
  rw [show fetchOne [⟨1, some 3⟩, ⟨2, some 3⟩] 2 = some ⟨2, some 3⟩ from by decide]
  dsimp only
  rw [if_neg (by decide)]
  rw [backwardScan_eq_last ⟨1, some 3⟩ [⟨2, some 3⟩]
    (by decide) (by decide) (by decide)]
  rw [forwardScan_eq_nil (by decide)]
  rw [if_neg (by decide)]
  rfl

/-- Witness for C8: a chat holding ids 1–11 all in group 5; the first
backward chunk from seed 11 covers ids 2–11, is fully matched and
contiguous, and the scan steps down to id 1. -/
theorem c8_backward_scan_terminates_witness :
    ((getMessageChunk [⟨1, some 5⟩, ⟨2, some 5⟩, ⟨3, some 5⟩, ⟨4, some 5⟩,
        ⟨5, some 5⟩, ⟨6, some 5⟩, ⟨7, some 5⟩, ⟨8, some 5⟩, ⟨9, some 5⟩,
        ⟨10, some 5⟩, ⟨11, some 5⟩] (max 1 (11 - 9)) 11).filter
        (fun msg => msg.media_group_id == some 5)
      = (⟨2, some 5⟩ : Message) :: [⟨3, some 5⟩, ⟨4, some 5⟩, ⟨5, some 5⟩,
        ⟨6, some 5⟩, ⟨7, some 5⟩, ⟨8, some 5⟩, ⟨9, some 5⟩, ⟨10, some 5⟩,
        ⟨11, some 5⟩]) ∧
    (Message.mk 2 (some 5)).id
      = 11 - (((⟨2, some 5⟩ : Message) :: [⟨3, some 5⟩, ⟨4, some 5⟩,
          ⟨5, some 5⟩, ⟨6, some 5⟩, ⟨7, some 5⟩, ⟨8, some 5⟩, ⟨9, some 5⟩,
          ⟨10, some 5⟩, ⟨11, some 5⟩]).length : Int) + 1 ∧
    (0 : Int) < (Message.mk 2 (some 5)).id - 1 ∧
    (1 ≤ max 1 ((11 : Int) - 9) ∧
     backwardScan [⟨1, some 5⟩, ⟨2, some 5⟩, ⟨3, some 5⟩, ⟨4, some 5⟩,
        ⟨5, some 5⟩, ⟨6, some 5⟩, ⟨7, some 5⟩, ⟨8, some 5⟩, ⟨9, some 5⟩,
        ⟨10, some 5⟩, ⟨11, some 5⟩] (some 5) 11 [] =
      backwardScan [⟨1, some 5⟩, ⟨2, some 5⟩, ⟨3, some 5⟩, ⟨4, some 5⟩,
        ⟨5, some 5⟩, ⟨6, some 5⟩, ⟨7, some 5⟩, ⟨8, some 5⟩, ⟨9, some 5⟩,
        ⟨10, some 5⟩, ⟨11, some 5⟩] (some 5) ((Message.mk 2 (some 5)).id - 1)
        (((⟨2, some 5⟩ : Message) :: [⟨3, some 5⟩, ⟨4, some 5⟩, ⟨5, some 5⟩,
          ⟨6, some 5⟩, ⟨7, some 5⟩, ⟨8, some 5⟩, ⟨9, some 5⟩, ⟨10, some 5⟩,
          ⟨11, some 5⟩]) ++ []) ∧
     (Message.mk 2 (some 5)).id - 1 < 11 ∧
     get_media_group [⟨1, some 3⟩, ⟨2, some 3⟩] 2 = .ok [⟨1, some 3⟩, ⟨2, some 3⟩]) :=
  ⟨by decide, by decide, by decide,
    c8_backward_scan_terminates _ (some 5) 11 [] ⟨2, some 5⟩ _
      (by decide) (by decide) (by decide)⟩

lemma backwardScan_mem {chat : Chat} {g : Option Int} {m : Message}
    (cid : Int) (acc : List Message)
    (h : m ∈ backwardScan chat g cid acc) :
    m ∈ acc ∨ m.media_group_id = g := by
  induction cid, acc using backwardScan.induct chat g with
  | case1 cid acc chunk heq =>
    have heq2 : (getMessageChunk chat (max 1 (cid - 9)) cid).filter
        (fun msg => msg.media_group_id == g) = [] := heq
    rw [backwardScan_eq_nil heq2] at h
    exact Or.inl h
  | case2 cid acc chunk m0 tl heq hne =>
    have heq2 : (getMessageChunk chat (max 1 (cid - 9)) cid).filter
        (fun msg => msg.media_group_id == g) = m0 :: tl := heq
    rw [backwardScan_eq_brk m0 tl heq2 hne] at h
    exact Or.inl h
  | case3 cid acc chunk m0 tl heq hnn hle =>
    have heq2 : (getMessageChunk chat (max 1 (cid - 9)) cid).filter
        (fun msg => msg.media_group_id == g) = m0 :: tl := heq
    rw [backwardScan_eq_last m0 tl heq2 (not_not.mp hnn) hle] at h
    rcases List.mem_append.mp h with hin | hin
    · right
      have hf : m ∈ (getMessageChunk chat (max 1 (cid - 9)) cid).filter
          (fun msg => msg.media_group_id == g) := by rw [heq2]; exact hin
      have := (List.mem_filter.mp hf).2
      simpa using this
    · exact Or.inl hin
  | case4 cid acc chunk m0 tl heq hnn acc2 hgt ih =>
    have heq2 : (getMessageChunk chat (max 1 (cid - 9)) cid).filter
        (fun msg => msg.media_group_id == g) = m0 :: tl := heq
    rw [backwardScan_eq_step m0 tl heq2 (not_not.mp hnn) hgt] at h
    rcases ih h with hin | hin
    · rcases List.mem_append.mp hin with hin2 | hin2
      · right
        have hf : m ∈ (getMessageChunk chat (max 1 (cid - 9)) cid).filter
            (fun msg => msg.media_group_id == g) := by rw [heq2]; exact hin2
        have := (List.mem_filter.mp hf).2
        simpa using this
      · exact Or.inl hin2
    · exact Or.inr hin

lemma forwardScan_mem {chat : Chat} {g : Option Int} {m : Message}
    (cid : Int) (acc : List Message)
    (h : m ∈ forwardScan chat g cid acc) :
    m ∈ acc ∨ m.media_group_id = g := by
  induction cid, acc using forwardScan.induct chat g with
  | case1 cid acc chunk heq =>
    have heq2 : (getMessageChunk chat cid (cid + 9)).filter
        (fun msg => msg.media_group_id == g) = [] := heq
    rw [forwardScan_eq_nil heq2] at h
    exact Or.inl h
  | case2 cid acc chunk m0 tl heq ih =>
    have heq2 : (getMessageChunk chat cid (cid + 9)).filter
        (fun msg => msg.media_group_id == g) = m0 :: tl := heq
    rw [forwardScan_eq_step m0 tl heq2] at h
    rcases ih h with hin | hin
    · rcases List.mem_append.mp hin with hin2 | hin2
      · exact Or.inl hin2
      · right
        have hf : m ∈ (getMessageChunk chat cid (cid + 9)).filter
            (fun msg => msg.media_group_id == g) := by rw [heq2]; exact hin2
        have := (List.mem_filter.mp hf).2
        simpa using this
    · exact Or.inr hin

lemma mem_sortById {l : List Message} {m : Message} :
    m ∈ sortById l ↔ m ∈ l := by
  simp only [sortById]
  exact List.mem_mergeSort

lemma sortById_sorted (l : List Message) :
    List.Sorted (fun a b : Message => a.id ≤ b.id) (sortById l) := by
  simp only [sortById]
  refine List.Pairwise.imp ?_ (List.sorted_mergeSort ?_ ?_ l)
  · intro a b hab
    simpa using hab
  · intro a b c hab hbc
    simp only [decide_eq_true_eq] at *
    omega
  · intro a b
    simp only [Bool.or_eq_true, decide_eq_true_eq]
    omega

/-- Claim C5: every message in a successfully returned list carries the
seed (target) message's `media_group_id` — both scans only accumulate
messages passing the `media_group_id == target's` filter — and the list is
sorted ascending by id by the final `sorted(..., key=id)`. -/
theorem c5_group_membership_and_sorted (chat : Chat) (message_id : Int)
    (res : List Message) (t : Message)
    (hok : get_media_group chat message_id = .ok res)
    (ht : fetchOne chat message_id = some t) :
    (∀ m ∈ res, m.media_group_id = t.media_group_id) ∧
    List.Sorted (fun a b : Message => a.id ≤ b.id) res := by
  simp only [get_media_group] at hok
  split at hok
  · cases hok
  · rw [ht] at hok
    dsimp only at hok
    split at hok
    · cases hok
    · split at hok
      · cases hok
      · have hres : res = sortById (forwardScan chat t.media_group_id (message_id + 1)
            (backwardScan chat t.media_group_id message_id [])) := by
          cases hok
          rfl
        subst hres
        refine ⟨?_, sortById_sorted _⟩
        intro m hm
        have hm2 := mem_sortById.mp hm
        rcases forwardScan_mem _ _ hm2 with hin | hin
        · rcases backwardScan_mem _ _ hin with hin2 | hin2
          · cases hin2
          · exact hin2
        · exact hin

/-- Witness for C5 at a one-message group: chat `[{id 3, group 4}]`,
seed 3, result `[{id 3, group 4}]`. -/
theorem c5_group_membership_and_sorted_witness :
    get_media_group [⟨3, some 4⟩] 3 = .ok [⟨3, some 4⟩] ∧
    fetchOne [⟨3, some 4⟩] 3 = some ⟨3, some 4⟩ ∧
    ((∀ m ∈ [(⟨3, some 4⟩ : Message)],
        m.media_group_id = (Message.mk 3 (some 4)).media_group_id) ∧
     List.Sorted (fun a b : Message => a.id ≤ b.id) [⟨3, some 4⟩]) := by
  have hok : get_media_group [⟨3, some 4⟩] 3 = .ok [⟨3, some 4⟩] := by
    simp only [get_media_group]
    rw [if_neg (by decide)]
    rw [show fetchOne [⟨3, some 4⟩] 3 = some ⟨3, some 4⟩ from by decide]
    dsimp only
    rw [if_neg (by decide)]
    rw [backwardScan_eq_step ⟨3, some 4⟩ []
      (by decide) (by decide) (by decide)]
    rw [backwardScan_eq_nil (by decide)]
    rw [forwardScan_eq_nil (by decide)]
    rw [if_neg (by decide)]
    rw [show sortById ([⟨3, some 4⟩] ++ []) = [⟨3, some 4⟩] from by
      rw [List.append_nil]
      exact List.mergeSort_of_sorted (by simp)]
  exact ⟨hok, by decide,
    c5_group_membership_and_sorted [⟨3, some 4⟩] 3 [⟨3, some 4⟩] ⟨3, some 4⟩
      hok (by decide)⟩

lemma fetchMatch_eq_some {chat : Chat} {g : Option Int} {i : Int} {m : Message} :
    fetchMatch chat g i = some m ↔
      fetchOne chat i = some m ∧ m.media_group_id = g := by
  unfold fetchMatch
  cases hf : fetchOne chat i with
  | none => simp
  | some m2 =>
    by_cases hmg : m2.media_group_id = g
    · simp only [Option.some_bind, if_pos hmg]
      constructor
      · rintro h
        cases h
        exact ⟨rfl, hmg⟩
      · rintro ⟨h1, h2⟩
        cases h1
        rfl
    · simp only [Option.some_bind, if_neg hmg]
      constructor
      · rintro h
        cases h
      · rintro ⟨h1, h2⟩
        cases h1
        exact absurd h2 hmg

lemma fetchMatch_id {chat : Chat} {g : Option Int} {i : Int} {m : Message}
    (h : fetchMatch chat g i = some m) : m.id = i :=
  (fetchOne_eq_some (fetchMatch_eq_some.mp h).1).2

lemma fetchMatch_mem_chat {chat : Chat} {g : Option Int} {i : Int} {m : Message}
    (h : fetchMatch chat g i = some m) : m ∈ chat :=
  (fetchOne_eq_some (fetchMatch_eq_some.mp h).1).1

lemma filter_chunk_eq {chat : Chat} {g : Option Int} (a b : Int) :
    (getMessageChunk chat a b).filter (fun msg => msg.media_group_id == g)
      = (intRange a b).filterMap (fetchMatch chat g) := by
  simp only [getMessageChunk]
  induction intRange a b with
  | nil => rfl
  | cons i rest ih =>
    simp only [List.filterMap_cons]
    cases hf : fetchOne chat i with
    | none =>
      have hm : fetchMatch chat g i = none := by
        unfold fetchMatch
        rw [hf]
        rfl
      rw [hm, ih]
    | some m =>
      by_cases hmg : m.media_group_id = g
      · have hm : fetchMatch chat g i = some m := fetchMatch_eq_some.mpr ⟨hf, hmg⟩
        rw [hm, List.filter_cons, if_pos (by simpa using hmg), ih]
      · have hm : fetchMatch chat g i = none := by
          unfold fetchMatch
          rw [hf]
          simp [hmg]
        rw [hm, List.filter_cons, if_neg (by simpa using hmg), ih]

lemma intRange_eq_nil {a b : Int} (h : b < a) : intRange a b = [] := by
  unfold intRange
  rw [show (b + 1 - a).toNat = 0 from by omega]
  rfl

lemma intRange_length {a b : Int} : (intRange a b).length = (b + 1 - a).toNat := by
  unfold intRange
  rw [List.length_map, List.length_range]

lemma intRange_split {a c b : Int} (h1 : a ≤ c) (h2 : c ≤ b + 1) :
    intRange a b = intRange a (c - 1) ++ intRange c b := by
  unfold intRange
  rw [show c - 1 + 1 - a = c - a from by omega]
  rw [show (b + 1 - a).toNat = (c - a).toNat + (b + 1 - c).toNat from by omega]
  rw [List.range_add, List.map_append, List.map_map]
  congr 1
  apply List.map_congr_left
  intro k hk
  simp only [Function.comp_apply]
  omega

lemma intRange_eq_cons {a b : Int} (h : a ≤ b) :
    intRange a b = a :: intRange (a + 1) b := by
  rw [intRange_split (c := a + 1) (by omega) (by omega)]
  have h1 : intRange a (a + 1 - 1) = [a] := by
    unfold intRange
    rw [show (a + 1 - 1 + 1 - a).toNat = 1 from by omega]
    simp [List.range_succ]
  rw [h1]
  rfl

lemma intRange_getLast? {a b : Int} (h : a ≤ b) :
    (intRange a b).getLast? = some b := by
  unfold intRange
  rw [show (b + 1 - a).toNat = (b - a).toNat + 1 from by omega]
  rw [List.range_succ, List.map_append]
  simp only [List.map_cons, List.map_nil]
  rw [List.getLast?_concat]
  congr 1
  omega

lemma run_nil {chat : Chat} {g : Option Int} {l : List Int}
    (hnone : ∀ i ∈ l, fetchMatch chat g i = none) :
    l.filterMap (fetchMatch chat g) = [] :=
  List.filterMap_eq_nil_iff.mpr hnone

lemma run_ids {chat : Chat} {g : Option Int} (l : List Int)
    (hall : ∀ i ∈ l, (fetchMatch chat g i).isSome = true) :
    (l.filterMap (fetchMatch chat g)).map Message.id = l := by
  induction l with
  | nil => rfl
  | cons i rest ih =>
    obtain ⟨m, hm⟩ := Option.isSome_iff_exists.mp (hall i (List.mem_cons_self i rest))
    rw [List.filterMap_cons, hm]
    simp only [List.map_cons]
    rw [fetchMatch_id hm, ih (fun j hj => hall j (List.mem_cons_of_mem i hj))]

lemma isSome_of_ne_none {m : Option Message} (h : m ≠ none) : m.isSome = true := by
  cases m
  · exact absurd rfl h
  · rfl

lemma piece_shape {chat : Chat} {g : Option Int} {s c : Int}
    (hsc : s ≤ c)
    (hall : ∀ i, s ≤ i → i ≤ c → (fetchMatch chat g i).isSome = true) :
    ∃ m0 tl, (intRange s c).filterMap (fetchMatch chat g) = m0 :: tl ∧
      m0.id = s ∧
      ((m0 :: tl).length : Int) = c + 1 - s ∧
      ((m0 :: tl).getLast (List.cons_ne_nil m0 tl)).id = c := by
  have hids : ((intRange s c).filterMap (fetchMatch chat g)).map Message.id
      = intRange s c :=
    run_ids _ (fun i hi => hall i (mem_intRange.mp hi).1 (mem_intRange.mp hi).2)
  have hcons : intRange s c = s :: intRange (s + 1) c := intRange_eq_cons hsc
  cases hp : (intRange s c).filterMap (fetchMatch chat g) with
  | nil =>
    rw [hp] at hids
    rw [hcons] at hids
    cases hids
  | cons m0 tl =>
    refine ⟨m0, tl, rfl, ?_, ?_, ?_⟩
    · rw [hp, hcons] at hids
      simpa using congrArg (fun l => l.head? ) hids
    · have hlen := congrArg List.length hids
      rw [hp] at hlen
      simp only [List.length_map] at hlen
      rw [hlen, intRange_length]
      omega
    · have hlast := congrArg List.getLast? hids
      rw [hp] at hlast
      rw [List.getLast?_map] at hlast
      rw [List.getLast?_eq_getLast _ (List.cons_ne_nil m0 tl)] at hlast
      rw [intRange_getLast? hsc] at hlast
      simpa using hlast

lemma backwardScan_run {chat : Chat} {g : Option Int} {lo hi : Int}
    (hmatch : ∀ i : Int, (fetchMatch chat g i).isSome = true ↔ (lo ≤ i ∧ i ≤ hi))
    (hlo : 1 ≤ lo) :
    ∀ cid acc, lo ≤ cid → cid ≤ hi →
      backwardScan chat g cid acc
        = (intRange lo cid).filterMap (fetchMatch chat g) ++ acc := by
  have main : ∀ n : Nat, ∀ cid acc, cid.toNat ≤ n → lo ≤ cid → cid ≤ hi →
      backwardScan chat g cid acc
        = (intRange lo cid).filterMap (fetchMatch chat g) ++ acc := by
    intro n
    induction n with
    | zero =>
      intro cid acc h1 h2 h3
      omega
    | succ n ih =>
      intro cid acc hle hlocid hcidhi
      have hs1 : max 1 (cid - 9) ≤ max (cid - 9) lo := by omega
      have hs2 : max (cid - 9) lo ≤ cid := by omega
      have hnone : ∀ i ∈ intRange (max 1 (cid - 9)) (max (cid - 9) lo - 1),
          fetchMatch chat g i = none := by
        intro i hi
        rw [mem_intRange] at hi
        by_contra hne
        have hsome := (hmatch i).mp (isSome_of_ne_none hne)
        omega
      have hall : ∀ i, max (cid - 9) lo ≤ i → i ≤ cid →
          (fetchMatch chat g i).isSome = true := by
        intro i hi1 hi2
        exact (hmatch i).mpr ⟨by omega, by omega⟩
      obtain ⟨m0, tl, hp, hid, hlen, hlast⟩ := piece_shape hs2 hall
      have hfilter : (getMessageChunk chat (max 1 (cid - 9)) cid).filter
          (fun msg => msg.media_group_id == g) = m0 :: tl := by
        rw [filter_chunk_eq]
        rw [intRange_split (c := max (cid - 9) lo) (by omega) (by omega)]
        rw [List.filterMap_append, run_nil hnone, List.nil_append, hp]
      have hc : m0.id = cid - ((m0 :: tl).length : Int) + 1 := by omega
      by_cases hstop : m0.id - 1 ≤ 0
      · rw [backwardScan_eq_last m0 tl hfilter hc hstop]
        have hslo : max (cid - 9) lo = lo := by omega
        rw [hslo] at hp
        rw [hp]
      · rw [backwardScan_eq_step m0 tl hfilter hc hstop]
        by_cases hge : lo ≤ m0.id - 1
        · rw [ih (m0.id - 1) ((m0 :: tl) ++ acc) (by omega) hge (by omega)]
          rw [intRange_split (a := lo) (c := max (cid - 9) lo) (b := cid)
            (by omega) (by omega)]
          rw [List.filterMap_append, hp, hid]
          rw [show max (cid - 9) lo - 1 = m0.id - 1 from by omega]
          rw [List.append_assoc]
        · have hslo : max (cid - 9) lo = lo := by omega
          have hnone2 : ∀ i ∈ intRange (max 1 (m0.id - 1 - 9)) (m0.id - 1),
              fetchMatch chat g i = none := by
            intro i hi
            rw [mem_intRange] at hi
            by_contra hne
            have hsome := (hmatch i).mp (isSome_of_ne_none hne)
            omega
          rw [backwardScan_eq_nil (by rw [filter_chunk_eq]; exact run_nil hnone2)]
          rw [hslo] at hp
          rw [hp]
  exact fun cid acc h1 h2 => main cid.toNat cid acc le_rfl h1 h2

lemma forwardScan_run {chat : Chat} {g : Option Int} {lo hi : Int}
    (hmatch : ∀ i : Int, (fetchMatch chat g i).isSome = true ↔ (lo ≤ i ∧ i ≤ hi)) :
    ∀ cid acc, lo ≤ cid →
      forwardScan chat g cid acc
        = acc ++ (intRange cid hi).filterMap (fetchMatch chat g) := by
  have main : ∀ n : Nat, ∀ cid acc, (hi + 1 - cid).toNat ≤ n → lo ≤ cid →
      forwardScan chat g cid acc
        = acc ++ (intRange cid hi).filterMap (fetchMatch chat g) := by
    intro n
    induction n with
    | zero =>
      intro cid acc h1 h2
      have hgt : hi < cid := by omega
      have hnone : ∀ i ∈ intRange cid (cid + 9), fetchMatch chat g i = none := by
        intro i hi2
        rw [mem_intRange] at hi2
        by_contra hne
        have hsome := (hmatch i).mp (isSome_of_ne_none hne)
        omega
      rw [forwardScan_eq_nil (by rw [filter_chunk_eq]; exact run_nil hnone)]
      rw [intRange_eq_nil hgt]
      simp
    | succ n ih =>
      intro cid acc hle hlocid
      by_cases hgt : hi < cid
      · have hnone : ∀ i ∈ intRange cid (cid + 9), fetchMatch chat g i = none := by
          intro i hi2
          rw [mem_intRange] at hi2
          by_contra hne
          have hsome := (hmatch i).mp (isSome_of_ne_none hne)
          omega
        rw [forwardScan_eq_nil (by rw [filter_chunk_eq]; exact run_nil hnone)]
        rw [intRange_eq_nil hgt]
        simp
      · have hcidhi : cid ≤ hi := by omega
        have he1 : cid ≤ min (cid + 9) hi := by omega
        have hall : ∀ i, cid ≤ i → i ≤ min (cid + 9) hi →
            (fetchMatch chat g i).isSome = true := by
          intro i hi1 hi2
          exact (hmatch i).mpr ⟨by omega, by omega⟩
        obtain ⟨m0, tl, hp, hid, hlen, hlast⟩ := piece_shape he1 hall
        have hnone : ∀ i ∈ intRange (min (cid + 9) hi + 1) (cid + 9),
            fetchMatch chat g i = none := by
          intro i hi2
          rw [mem_intRange] at hi2
          by_contra hne
          have hsome := (hmatch i).mp (isSome_of_ne_none hne)
          omega
        have hfilter : (getMessageChunk chat cid (cid + 9)).filter
            (fun msg => msg.media_group_id == g) = m0 :: tl := by
          rw [filter_chunk_eq]
          rw [intRange_split (c := min (cid + 9) hi + 1) (by omega) (by omega)]
          rw [List.filterMap_append, run_nil hnone]
          rw [show min (cid + 9) hi + 1 - 1 = min (cid + 9) hi from by omega]
          rw [hp, List.append_nil]
        rw [forwardScan_eq_step m0 tl hfilter]
        rw [hlast]
        rw [ih (min (cid + 9) hi + 1) (acc ++ (m0 :: tl)) (by omega) (by omega)]
        rw [intRange_split (a := cid) (c := min (cid + 9) hi + 1) (b := hi)
          (by omega) (by omega)]
        rw [List.filterMap_append]
        rw [show min (cid + 9) hi + 1 - 1 = min (cid + 9) hi from by omega]
        rw [hp, List.append_assoc]
  exact fun cid acc h1 => main (hi + 1 - cid).toNat cid acc le_rfl h1

lemma foldr_min_le {l : List Int} {d i : Int} (h : i ∈ l) : l.foldr min d ≤ i := by
  induction l with
  | nil => cases h
  | cons x xs ih =>
    rcases List.mem_cons.mp h with rfl | hx
    · exact min_le_left _ _
    · exact le_trans (min_le_right _ _) (ih hx)

lemma foldr_min_le_init {l : List Int} {d : Int} : l.foldr min d ≤ d := by
  induction l with
  | nil => exact le_rfl
  | cons x xs ih => exact le_trans (min_le_right _ _) ih

lemma foldr_min_mem {l : List Int} {d : Int} :
    l.foldr min d = d ∨ l.foldr min d ∈ l := by
  induction l with
  | nil => exact Or.inl rfl
  | cons x xs ih =>
    rcases le_total x (xs.foldr min d) with hx | hx
    · right
      rw [List.foldr_cons, min_eq_left hx]
      exact List.mem_cons_self x xs
    · rw [List.foldr_cons, min_eq_right hx]
      rcases ih with h1 | h1
      · exact Or.inl h1
      · exact Or.inr (List.mem_cons_of_mem x h1)

lemma le_foldr_max {l : List Int} {d i : Int} (h : i ∈ l) : i ≤ l.foldr max d := by
  induction l with
  | nil => cases h
  | cons x xs ih =>
    rcases List.mem_cons.mp h with rfl | hx
    · exact le_max_left _ _
    · exact le_trans (ih hx) (le_max_right _ _)

lemma le_foldr_max_init {l : List Int} {d : Int} : d ≤ l.foldr max d := by
  induction l with
  | nil => exact le_rfl
  | cons x xs ih => exact le_trans ih (le_max_right _ _)

lemma foldr_max_mem {l : List Int} {d : Int} :
    l.foldr max d = d ∨ l.foldr max d ∈ l := by
  induction l with
  | nil => exact Or.inl rfl
  | cons x xs ih =>
    rcases le_total x (xs.foldr max d) with hx | hx
    · rw [List.foldr_cons, max_eq_right hx]
      rcases ih with h1 | h1
      · exact Or.inl h1
      · exact Or.inr (List.mem_cons_of_mem x h1)
    · right
      rw [List.foldr_cons, max_eq_left hx]
      exact List.mem_cons_self x xs

lemma exists_run_bounds {chat : Chat} {g : Option Int} {mid : Int} {t : Message}
    (ht : fetchOne chat mid = some t) (hg : t.media_group_id = g)
    (hids : ∀ m ∈ chat, 1 ≤ m.id)
    (hcont : groupContiguous chat g) :
    ∃ lo hi : Int, 1 ≤ lo ∧ lo ≤ mid ∧ mid ≤ hi ∧
      ∀ i : Int, (fetchMatch chat g i).isSome = true ↔ (lo ≤ i ∧ i ≤ hi) := by
  have hmid : fetchMatch chat g mid = some t := fetchMatch_eq_some.mpr ⟨ht, hg⟩
  have hmids : (fetchMatch chat g mid).isSome = true := by rw [hmid]; rfl
  set matchIds := (chat.map Message.id).filter
    (fun i => (fetchMatch chat g i).isSome) with hmi
  have hmemA : ∀ i : Int, (fetchMatch chat g i).isSome = true → i ∈ matchIds := by
    intro i hi
    obtain ⟨m, hm⟩ := Option.isSome_iff_exists.mp hi
    refine List.mem_filter.mpr ⟨?_, hi⟩
    have := fetchMatch_mem_chat hm
    have hid := fetchMatch_id hm
    exact hid ▸ List.mem_map_of_mem Message.id this
  have hsome_of_mem : ∀ i, i ∈ matchIds → (fetchMatch chat g i).isSome = true :=
    fun i hi => (List.mem_filter.mp hi).2
  refine ⟨matchIds.foldr min mid, matchIds.foldr max mid, ?_, foldr_min_le_init,
    le_foldr_max_init, ?_⟩
  · have hlosome : (fetchMatch chat g (matchIds.foldr min mid)).isSome = true := by
      rcases foldr_min_mem (l := matchIds) (d := mid) with h1 | h1
      · rw [h1]; exact hmids
      · exact hsome_of_mem _ h1
    obtain ⟨m, hm⟩ := Option.isSome_iff_exists.mp hlosome
    have := hids m (fetchMatch_mem_chat hm)
    have hid := fetchMatch_id hm
    omega
  · intro i
    constructor
    · intro hi
      exact ⟨foldr_min_le (hmemA i hi), le_foldr_max (hmemA i hi)⟩
    · rintro ⟨h1, h2⟩
      have hlosome : (fetchMatch chat g (matchIds.foldr min mid)).isSome = true := by
        rcases foldr_min_mem (l := matchIds) (d := mid) with hh | hh
        · rw [hh]; exact hmids
        · exact hsome_of_mem _ hh
      have hhisome : (fetchMatch chat g (matchIds.foldr max mid)).isSome = true := by
        rcases foldr_max_mem (l := matchIds) (d := mid) with hh | hh
        · rw [hh]; exact hmids
        · exact hsome_of_mem _ hh
      exact hcont _ i _ h1 h2 hlosome hhisome

lemma get_media_group_run_char (chat : Chat) (mid : Int) (t : Message)
    (hpos : 0 < mid) (ht : fetchOne chat mid = some t)
    (htr : pyTruthy t.media_group_id = true)
    (hids : ∀ m ∈ chat, 1 ≤ m.id)
    (hcont : groupContiguous chat t.media_group_id) :
    ∃ res, get_media_group chat mid = .ok res ∧
      ∀ m : Message, m ∈ res ↔
        (fetchOne chat m.id = some m ∧
         inRun chat t.media_group_id mid m.id = true) := by
  obtain ⟨lo, hi, hlo1, hlomid, hmidhi, hmatch⟩ :=
    exists_run_bounds ht rfl hids hcont
  have hmid : fetchMatch chat t.media_group_id mid = some t :=
    fetchMatch_eq_some.mpr ⟨ht, rfl⟩
  have hb := backwardScan_run hmatch hlo1 mid [] hlomid hmidhi
  have hf := forwardScan_run hmatch (mid + 1)
    ((intRange lo mid).filterMap (fetchMatch chat t.media_group_id) ++ [])
    (by omega)
  have hM : ((intRange lo mid).filterMap (fetchMatch chat t.media_group_id) ++ [])
      ++ (intRange (mid + 1) hi).filterMap (fetchMatch chat t.media_group_id)
      = (intRange lo hi).filterMap (fetchMatch chat t.media_group_id) := by
    rw [List.append_nil, ← List.filterMap_append]
    congr 1
    rw [intRange_split (a := lo) (c := mid + 1) (b := hi) (by omega) (by omega)]
    rw [show mid + 1 - 1 = mid from by omega]
  have htmem : t ∈ (intRange lo hi).filterMap (fetchMatch chat t.media_group_id) :=
    List.mem_filterMap.mpr ⟨mid, mem_intRange.mpr ⟨hlomid, hmidhi⟩, hmid⟩
  have hne : (intRange lo hi).filterMap (fetchMatch chat t.media_group_id) ≠ [] :=
    List.ne_nil_of_mem htmem
  refine ⟨sortById ((intRange lo hi).filterMap (fetchMatch chat t.media_group_id)),
    ?_, ?_⟩
  · simp only [get_media_group]
    rw [if_neg (by omega), ht]
    dsimp only
    rw [if_neg (by rw [htr]; decide)]
    rw [hb, hf, hM]
    rw [if_neg hne]
  · intro m
    rw [mem_sortById, List.mem_filterMap]
    constructor
    · rintro ⟨i, hir, hfm⟩
      have hidm := fetchMatch_id hfm
      subst hidm
      obtain ⟨hfo, hmg⟩ := fetchMatch_eq_some.mp hfm
      rw [mem_intRange] at hir
      refine ⟨hfo, ?_⟩
      unfold inRun
      rw [List.all_eq_true]
      intro j hj
      rw [mem_intRange] at hj
      exact (hmatch j).mpr ⟨by omega, by omega⟩
    · rintro ⟨hfo, hir⟩
      have hmsome : (fetchMatch chat t.media_group_id m.id).isSome = true := by
        unfold inRun at hir
        rw [List.all_eq_true] at hir
        exact hir m.id (mem_intRange.mpr ⟨by omega, by omega⟩)
      obtain ⟨m2, hm2⟩ := Option.isSome_iff_exists.mp hmsome
      have hfo2 := (fetchMatch_eq_some.mp hm2).1
      rw [hfo] at hfo2
      cases hfo2
      have hbounds := (hmatch m.id).mp hmsome
      exact ⟨m.id, mem_intRange.mpr hbounds, hm2⟩

unseal List.merge List.mergeSort in
/-- Claim C1, counterexample: in the chat `{30:G, 31:other, 32:G, 33:G}`
the seed 32 carries group G, the call succeeds, and yet the seed itself —
a member of the maximal contiguous run around the seed (`inRun ... 32 32`)
— is absent from the returned list `[33]`: the universally quantified
claim is false on the code. -/
theorem c1_counterexample :
    fetchOne [⟨30, some 9⟩, ⟨31, none⟩, ⟨32, some 9⟩, ⟨33, some 9⟩] 32
        = some ⟨32, some 9⟩ ∧
    inRun [⟨30, some 9⟩, ⟨31, none⟩, ⟨32, some 9⟩, ⟨33, some 9⟩] (some 9) 32 32
        = true ∧
    get_media_group [⟨30, some 9⟩, ⟨31, none⟩, ⟨32, some 9⟩, ⟨33, some 9⟩] 32
        = .ok [⟨33, some 9⟩] ∧
    ∀ m ∈ [(⟨33, some 9⟩ : Message)], m.id ≠ 32 := by
  refine ⟨by decide, by decide, ?_, by decide⟩
  simp only [get_media_group]
  rw [if_neg (by decide)]
  rw [show fetchOne [⟨30, some 9⟩, ⟨31, none⟩, ⟨32, some 9⟩, ⟨33, some 9⟩] 32
      = some ⟨32, some 9⟩ from by decide]
  dsimp only
  rw [if_neg (by decide)]
  rw [backwardScan_eq_brk ⟨30, some 9⟩ [⟨32, some 9⟩]
    (by decide) (by decide)]
  rw [forwardScan_eq_step ⟨33, some 9⟩ [] (by decide)]
  rw [forwardScan_eq_nil (by decide)]
  rw [if_neg (by decide)]
  rfl

/-- Claim C1, amended: under the album invariant the spec itself states
(`groupContiguous`: the messages of the target group occupy a contiguous
id-run) and positive message ids, a call whose seed exists and has a
truthy `media_group_id` succeeds and returns exactly the messages of the
maximal contiguous run around the seed: `m` is returned iff `m` is the
chat's message at `m.id` and `m.id` lies in the run around the seed. -/
theorem c1_amended_maximal_run (chat : Chat) (mid : Int) (t : Message)
    (hpos : 0 < mid) (ht : fetchOne chat mid = some t)
    (htr : pyTruthy t.media_group_id = true)
    (hids : ∀ m ∈ chat, 1 ≤ m.id)
    (hcont : groupContiguous chat t.media_group_id) :
    ∃ res, get_media_group chat mid = .ok res ∧
      ∀ m : Message, m ∈ res ↔
        (fetchOne chat m.id = some m ∧
         inRun chat t.media_group_id mid m.id = true) :=
  get_media_group_run_char chat mid t hpos ht htr hids hcont

/-- Claim C3, amended: the `AssemblyFailure` branch is unreachable after a
successful seed lookup only under the additional hypothesis that the
target group's messages form a contiguous id-run (`groupContiguous`); the
unqualified claim is refuted by `c3_counterexample`. -/
theorem c3_amended_no_assembly_failure (chat : Chat) (mid : Int) (t : Message)
    (hpos : 0 < mid) (ht : fetchOne chat mid = some t)
    (htr : pyTruthy t.media_group_id = true)
    (hids : ∀ m ∈ chat, 1 ≤ m.id)
    (hcont : groupContiguous chat t.media_group_id) :
    get_media_group chat mid ≠ .error .assemblyFailure := by
  obtain ⟨res, hok, hmem⟩ := get_media_group_run_char chat mid t hpos ht htr hids hcont
  rw [hok]
  intro h
  cases h

/-- Witness for amended C1: singleton album `{1:G}` resolved from seed 1. -/
theorem c1_amended_maximal_run_witness :
    (0 : Int) < 1 ∧
    fetchOne [⟨1, some 1⟩] 1 = some ⟨1, some 1⟩ ∧
    pyTruthy (Message.mk 1 (some 1)).media_group_id = true ∧
    (∀ m ∈ [(⟨1, some 1⟩ : Message)], 1 ≤ m.id) ∧
    groupContiguous [⟨1, some 1⟩] (Message.mk 1 (some 1)).media_group_id ∧
    ∃ res, get_media_group [⟨1, some 1⟩] 1 = .ok res ∧
      ∀ m : Message, m ∈ res ↔
        (fetchOne [⟨1, some 1⟩] m.id = some m ∧
         inRun [⟨1, some 1⟩] (Message.mk 1 (some 1)).media_group_id 1 m.id = true) := by
  have hiso : ∀ i : Int,
      (fetchMatch [⟨1, some 1⟩] (some 1) i).isSome = true → i = 1 := by
    intro i h
    by_cases h1 : i = 1
    · exact h1
    · exfalso
      have hnone : fetchOne [(⟨1, some 1⟩ : Message)] i = none := by
        unfold fetchOne
        rw [List.find?_cons_of_neg]
        · rfl
        · simp only [beq_iff_eq]
          omega
      have hfm : fetchMatch [(⟨1, some 1⟩ : Message)] (some 1) i = none := by
        unfold fetchMatch
        rw [hnone]
        rfl
      rw [hfm] at h
      cases h
  have hcont : groupContiguous [⟨1, some 1⟩] (some 1) := by
    intro i j k hij hjk hi hk
    have hi1 := hiso i hi
    have hk1 := hiso k hk
    have hj1 : j = 1 := by omega
    rw [hj1]
    decide
  exact ⟨by decide, by decide, by decide, by decide, hcont,
    c1_amended_maximal_run [⟨1, some 1⟩] 1 ⟨1, some 1⟩ (by decide) (by decide)
      (by decide) (by decide) hcont⟩

/-- Witness for amended C3: singleton album `{2:G}` resolved from seed 2. -/
theorem c3_amended_no_assembly_failure_witness :
    (0 : Int) < 2 ∧
    fetchOne [⟨2, some 7⟩] 2 = some ⟨2, some 7⟩ ∧
    pyTruthy (Message.mk 2 (some 7)).media_group_id = true ∧
    (∀ m ∈ [(⟨2, some 7⟩ : Message)], 1 ≤ m.id) ∧
    groupContiguous [⟨2, some 7⟩] (Message.mk 2 (some 7)).media_group_id ∧
    get_media_group [⟨2, some 7⟩] 2 ≠ .error .assemblyFailure := by
  have hiso : ∀ i : Int,
      (fetchMatch [⟨2, some 7⟩] (some 7) i).isSome = true → i = 2 := by
    intro i h
    by_cases h1 : i = 2
    · exact h1
    · exfalso
      have hnone : fetchOne [(⟨2, some 7⟩ : Message)] i = none := by
        unfold fetchOne
        rw [List.find?_cons_of_neg]
        · rfl
        · simp only [beq_iff_eq]
          omega
      have hfm : fetchMatch [(⟨2, some 7⟩ : Message)] (some 7) i = none := by
        unfold fetchMatch
        rw [hnone]
        rfl
      rw [hfm] at h
      cases h
  have hcont : groupContiguous [⟨2, some 7⟩] (some 7) := by
    intro i j k hij hjk hi hk
    have hi1 := hiso i hi
    have hk1 := hiso k hk
    have hj1 : j = 2 := by omega
    rw [hj1]
    decide
  exact ⟨by decide, by decide, by decide, by decide, hcont,
    c3_amended_no_assembly_failure [⟨2, some 7⟩] 2 ⟨2, some 7⟩ (by decide)
      (by decide) (by decide) (by decide) hcont⟩
